import Mathlib

/-!
Verification of the EURLex retrieval-and-context-assembly pipeline
(`api/chat.js`) against its natural-language specification.

The JavaScript handler is shallowly embedded below.  Conventions:

* JS strings are Lean `String`; `s.toLowerCase()` is `String.map Char.toLower`
  (the corpus and queries are ASCII-oriented); `s.slice(0, n)` is `jsSlice`.
* A JSON field that may be absent (or JS-falsy, i.e. `undefined`/`''`) is an
  `Option`; the JS `a || b` chain on strings is `jsOr`.
* A date-bearing field is modelled by the result of `new Date(s).getTime()`:
  `Option (Option Int)` — outer `none` = field absent/falsy, `some none` =
  string present but unparseable (`NaN`), `some (some t)` = timestamp `t` in
  milliseconds.  (`Date` parsing itself is a JS runtime primitive, so items
  carry the parse result; the raw strings used only for display in the
  context block are carried separately as `addedStr`/`dateStr`.)
* A JS number that may be `NaN` (e.g. `Number(top_k)`) is `Option Int`
  (`none` = `NaN`); `Math.floor` of a real division by a positive constant
  is Lean's `Int` division (`Int.ediv`, which rounds toward `-∞`).
* Fallible transports (`fetch`) are `Except Unit`; the handler's
  `.catch(()=>[])` is `Except.getD`-style recovery.
-/

/-- JS `a || b` for strings: the empty string is falsy. -/
def jsOr (a b : String) : String := if a = "" then b else a

/-- JS `s.toLowerCase()` (ASCII case folding), character by character. -/
def lowerStr (s : String) : String := ⟨s.data.map Char.toLower⟩

/-- JS `s.slice(0, n)` for `n ≥ 0`: the first `n` characters. -/
def jsSlice (s : String) (n : Nat) : String := ⟨s.data.take n⟩

/-- Worker for `collapseWs`; the flag records whether the previous character
was whitespace (so a run contributes a single space). -/
def collapseWsGo : Bool → List Char → List Char
  | _, [] => []
  | prevWs, c :: cs =>
    if c.isWhitespace then
      if prevWs then collapseWsGo true cs else ' ' :: collapseWsGo true cs
    else c :: collapseWsGo false cs

/-- JS `s.replace(/\s+/g, ' ')`: each whitespace run becomes one space. -/
def collapseWs (s : String) : String := ⟨collapseWsGo false s.data⟩

/-- A chat message `{role, content}`. -/
structure Msg where
  role : String := ""
  content : String := ""
  deriving DecidableEq

/-- The request's `filters` object. -/
structure Filters where
  sources : List String := []
  categories : List String := []
  tags : List String := []
  date_from_days : Int := 0
  deriving DecidableEq

/-- A corpus item (post or report), fields per the JSON shapes read by
`api/chat.js`.  `added`/`date` hold the `Date`-parse results (see header);
`addedStr`/`dateStr` hold the same fields as raw display strings. -/
structure Item where
  title : String := ""
  url : Option String := none
  url_html : Option String := none
  source : Option String := none
  kind : String := ""
  tags : List String := []
  categories : List String := []
  summary : Option String := none
  abstract : Option String := none
  added : Option (Option Int) := none
  date : Option (Option Int) := none
  addedStr : String := ""
  dateStr : String := ""
  deriving DecidableEq

/-- A user-supplied attachment `{name, text}` (client-extracted text). -/
structure Attachment where
  name : String := ""
  text : String := ""
  deriving DecidableEq

/-- The request body; `top_k` is the value of `Number(top_k)` (`none` =
`NaN`), defaulting to `8`.  The body may carry an `attachments` array (the
client `docs/assets/chat.js` sends one), but the handler's destructuring at
chat.js:31-35 reads only `messages`, `top_k`, `filters` and `remote`, so
the field is never consumed. -/
structure Request where
  messages : List Msg := []
  top_k : Option Int := some 8
  filters : Filters := {}
  attachments : List Attachment := []
  deriving DecidableEq

/-- The endpoint's observable outcome: `ok answer results` is the 200
`res.json({answer, results})`; `err` is the outer catch's HTTP 500. -/
inductive Response where
  | ok (answer : Option String) (results : List Item) : Response
  | err : Response
  deriving DecidableEq

/-- `{...p, kind:'post'}`. -/
def tagPost (it : Item) : Item := { it with kind := "post" }

/-- `{...r, kind:'report', url: r.url_html}` (the `url` field is overwritten
by `url_html`, present or not). -/
def tagReport (it : Item) : Item := { it with kind := "report", url := it.url_html }

/-- The unified corpus: posts then reports, each tagged; a failed fetch of
either collection is recovered to `[]` by `.catch(()=>[])`. -/
def corpus (posts reports : Except Unit (List Item)) : List Item :=
  (posts.toOption.getD []).map tagPost ++ (reports.toOption.getD []).map tagReport

/-- `(messages.findLast(m => m.role==='user')?.content) ||
(messages[messages.length-1]?.content) || ''`. -/
def queryOf (ms : List Msg) : String :=
  jsOr
    (jsOr (((ms.filter fun m => m.role == "user").getLast?.map Msg.content).getD "")
      ((ms.getLast?.map Msg.content).getD ""))
    ""

/-- `q.toLowerCase().split(/\s+/).filter(Boolean)`. -/
def tokenize (q : String) : List String :=
  ((lowerStr q).split Char.isWhitespace).filter fun s => s ≠ ""

/-- `it.source || 'Other'` (used by the source filter). -/
def srcOf (it : Item) : String := jsOr (it.source.getD "") "Other"

/-- `it.added || it.date` at the parse-result level ( an unparseable string
is still JS-truthy, so a present-but-invalid `added` shadows `date`). -/
def effDate (it : Item) : Option (Option Int) :=
  match it.added with
  | none => it.date
  | some v => some v

/-- The recency-window predicate `within(iso)` closed over `filters`:
`days = Number(filters.date_from_days || 0)`; `!days` or a missing date
passes; `NaN >= anything` is false, so an unparseable date fails. -/
def within (now : Int) (f : Filters) (d : Option (Option Int)) : Bool :=
  if f.date_from_days = 0 then true
  else
    match d with
    | none => true
    | some none => false
    | some (some t) => decide (now - f.date_from_days * 86400000 ≤ t)

/-- The scoring haystack:
`((it.title||'')+' '+(it.summary||it.abstract||'')+' '+(it.tags||[]).join(' ')+' '+(it.source||'')).toLowerCase()`. -/
def hayOf (it : Item) : String :=
  lowerStr (it.title ++ " " ++ jsOr (it.summary.getD "") (jsOr (it.abstract.getD "") "")
    ++ " " ++ String.intercalate " " it.tags ++ " " ++ it.source.getD "")

/-- Whether the first character list is a prefix of the second. -/
def isPrefixL : List Char → List Char → Bool
  | [], _ => true
  | _ :: _, [] => false
  | a :: as, b :: bs => a == b && isPrefixL as bs

/-- JS `hay.includes(needle)` on character lists: substring containment. -/
def includesL (needle : List Char) : List Char → Bool
  | [] => needle.isEmpty
  | c :: rest => isPrefixL needle (c :: rest) || includesL needle rest

/-- JS `hay.includes(needle)` on strings. -/
def strIncludes (hay needle : String) : Bool := includesL needle.data hay.data

/-- `for (const t of qTokens) if (hay.includes(t)) s += 1` — one point per
query token (with multiplicity) occurring as a substring of the haystack. -/
def termScore (hay : String) (qTokens : List String) : Int :=
  (qTokens.countP fun t => strIncludes hay t : Nat)

/-- `new Date(it.added || it.date || 0)` as a parse result: both fields
falsy gives the epoch (`0`); a present field gives its own parse result. -/
def whenVal (it : Item) : Option Int :=
  match effDate it with
  | none => some 0
  | some v => v

/-- The recency bonus: for a parseable date,
`Math.max(0, 3 - Math.min(3, Math.floor(days/7)))` where
`days = (now - t)/86400000`; `NaN` (`none`) contributes nothing. -/
def recencyBonus (now : Int) (w : Option Int) : Int :=
  match w with
  | none => 0
  | some t => max 0 (3 - min 3 ((now - t) / 604800000))

/-- The filter stage of `score` as a positive predicate (spec §4.3):
source allow-set, category require-all over tags∪categories, tag
require-all over the same combined set (as the code builds one `bag`),
and the recency window. -/
def passesFilters (now : Int) (f : Filters) (it : Item) : Bool :=
  (f.sources.isEmpty || f.sources.contains (srcOf it))
    && (f.categories.all fun c => (it.tags ++ it.categories).contains c)
    && (f.tags.all fun t => (it.tags ++ it.categories).contains t)
    && within now f (effDate it)

/-- `score(it)` from `api/chat.js`: `-1` on any failed filter, otherwise
term hits plus recency bonus.  `bag = new Set([...tags, ...categories])`;
set membership is list membership in `tags ++ categories`. -/
def score (now : Int) (f : Filters) (qTokens : List String) (it : Item) : Int :=
  if !f.sources.isEmpty && !(f.sources.contains (srcOf it)) then -1
  else if !(f.categories.all fun c => (it.tags ++ it.categories).contains c) then -1
  else if !(f.tags.all fun t => (it.tags ++ it.categories).contains t) then -1
  else if !(within now f (effDate it)) then -1
  else termScore (hayOf it) qTokens + recencyBonus now (whenVal it)

/-- A scored candidate `{it, s}`. -/
structure Scored where
  it : Item := {}
  s : Int := 0
  deriving DecidableEq

/-- Insert into a descending-sorted list, after every element of strictly
greater score and before the first of smaller-or-equal score — the unique
stable position for an element originating earlier in the input. -/
def insDesc (x : Scored) : List Scored → List Scored
  | [] => [x]
  | y :: ys => if x.s < y.s then y :: insDesc x ys else x :: y :: ys

/-- Stable descending-by-score sort, the behaviour of the (ES2019-stable)
`Array.prototype.sort((a,b) => b.s - a.s)`. -/
def sortDesc : List Scored → List Scored
  | [] => []
  | x :: xs => insDesc x (sortDesc xs)

/-- The element count kept by `.slice(0, Math.max(1, Number(top_k)))`:
`Math.max(1, NaN)` is `NaN` and `slice` converts `NaN` to `0`. -/
def sliceBound : Option Int → Nat
  | none => 0
  | some k => (max 1 k).toNat

/-- The ranking stage:
`.filter(x => x.s >= 0).sort((a,b) => b.s - a.s).slice(0, Math.max(1, Number(top_k)))`. -/
def rank (cands : List Scored) (topk : Option Int) : List Scored :=
  (sortDesc (cands.filter fun x => decide (0 ≤ x.s))).take (sliceBound topk)

/-- Corpus → ranked top items, for a given request (query taken from the
conversation, filters and `top_k` from the body). -/
def pipelineTop (now : Int) (req : Request) (items : List Item) : List Item :=
  (rank (items.map fun it => { it := it, s := score now req.filters (tokenize (queryOf req.messages)) it })
      req.top_k).map Scored.it

/-- The endpoint, as a pure function of the fetched collections, the
request, whether `OPENAI_API_KEY` is configured, and the completion
provider's outcome (`Except.error` = the `fetch`/`.json()` chain threw,
caught only by the outer try/catch, hence HTTP 500; `.ok c` = a parsed
response whose extracted `choices[0].message.content || null` is `c`).
Without a key the handler returns early with a null answer. -/
def handler (now : Int) (posts reports : Except Unit (List Item)) (req : Request)
    (apiKey : Bool) (prov : Except Unit (Option String)) : Response :=
  let top := pipelineTop now req (corpus posts reports)
  if apiKey then
    match prov with
    | .error _ => .err
    | .ok c => .ok c top
  else .ok none top

/-- One ranked-item context entry (the `remote=false` path, where the
remote-extract suffix `ext` is empty):
`[${i+1}] ${r.title} — ${r.source||r.kind} — ${date}\n${sum}\nURL: ${r.url}\n`
with `date = (r.added || r.date || '').slice(0,10)` and
`sum = (r.summary || r.abstract || '').replace(/\s+/g,' ').slice(0,900)`. -/
def itemEntry (i : Nat) (r : Item) : String :=
  "[" ++ toString (i + 1) ++ "] " ++ r.title ++ " — " ++ jsOr (r.source.getD "") r.kind
    ++ " — " ++ jsSlice (jsOr r.addedStr (jsOr r.dateStr "")) 10 ++ "\n"
    ++ jsSlice (collapseWs (jsOr (r.summary.getD "") (jsOr (r.abstract.getD "") ""))) 900
    ++ "\nURL: " ++ r.url.getD "undefined" ++ "\n"

/-- The context block `blocks` of chat.js:99-104 as its list of entries:
exactly one entry per ranked item (the source joins them with `'\n\n'`).
The handler destructures no `attachments` field, so nothing else enters
the block. -/
def contextEntries (top : List Item) : List String :=
  top.enum.map fun p => itemEntry p.1 p.2

/-! ### Properties of the stable descending sort -/

theorem mem_insDesc {a x : Scored} {l : List Scored} : a ∈ insDesc x l ↔ a = x ∨ a ∈ l := by
  induction l with
  | nil => simp [insDesc]
  | cons y ys ih =>
    simp only [insDesc]
    split
    · simp only [List.mem_cons, ih]
      tauto
    · simp only [List.mem_cons]

theorem length_insDesc (x : Scored) (l : List Scored) :
    (insDesc x l).length = l.length + 1 := by
  induction l with
  | nil => rfl
  | cons y ys ih =>
    simp only [insDesc]
    split
    · simp [ih]
    · simp

theorem pairwise_insDesc {x : Scored} {l : List Scored}
    (h : l.Pairwise fun a b => b.s ≤ a.s) :
    (insDesc x l).Pairwise fun a b => b.s ≤ a.s := by
  induction l with
  | nil => simp [insDesc]
  | cons y ys ih =>
    rw [List.pairwise_cons] at h
    obtain ⟨hy, hys⟩ := h
    simp only [insDesc]
    split
    · rename_i hlt
      rw [List.pairwise_cons]
      refine ⟨fun z hz => ?_, ih hys⟩
      rcases mem_insDesc.mp hz with rfl | hz
      · omega
      · exact hy z hz
    · rename_i hge
      rw [List.pairwise_cons]
      refine ⟨fun z hz => ?_, List.pairwise_cons.mpr ⟨hy, hys⟩⟩
      rcases List.mem_cons.mp hz with rfl | hz
      · omega
      · have := hy z hz
        omega

theorem sortDesc_pairwise (l : List Scored) :
    (sortDesc l).Pairwise fun a b => b.s ≤ a.s := by
  induction l with
  | nil => exact List.Pairwise.nil
  | cons x xs ih => exact pairwise_insDesc ih

theorem length_sortDesc (l : List Scored) : (sortDesc l).length = l.length := by
  induction l with
  | nil => rfl
  | cons x xs ih =>
    rw [sortDesc, length_insDesc, ih]
    simp

theorem mem_sortDesc {a : Scored} {l : List Scored} : a ∈ sortDesc l ↔ a ∈ l := by
  induction l with
  | nil => simp [sortDesc]
  | cons x xs ih =>
    rw [sortDesc, mem_insDesc]
    simp [ih]

theorem filter_insDesc (v : Int) (x : Scored) (l : List Scored) :
    (insDesc x l).filter (fun a => decide (a.s = v)) =
      (x :: l).filter (fun a => decide (a.s = v)) := by
  induction l with
  | nil => rfl
  | cons y ys ih =>
    simp only [insDesc]
    split
    · rename_i hlt
      by_cases hx : x.s = v
      · by_cases hy : y.s = v
        · omega
        · simp [List.filter_cons, hx, hy, ih]
      · by_cases hy : y.s = v
        · simp [List.filter_cons, hx, hy, ih]
        · simp [List.filter_cons, hx, hy, ih]
    · rfl

theorem filter_sortDesc (v : Int) (l : List Scored) :
    (sortDesc l).filter (fun a => decide (a.s = v)) =
      l.filter (fun a => decide (a.s = v)) := by
  induction l with
  | nil => rfl
  | cons x xs ih =>
    rw [sortDesc, filter_insDesc]
    simp only [List.filter_cons]
    split
    · rw [ih]
    · rw [ih]

/-- `score` agrees with the positive filter predicate: an item scores `-1`
exactly when some filter fails, and otherwise scores term hits plus the
recency bonus. -/
theorem score_split (now : Int) (f : Filters) (q : List String) (it : Item) :
    score now f q it
      = if passesFilters now f it
          then termScore (hayOf it) q + recencyBonus now (whenVal it) else -1 := by
  rw [score, passesFilters]
  cases h1 : f.sources.isEmpty <;>
    cases h2 : f.sources.contains (srcOf it) <;>
      cases h3 : (f.categories.all fun c => (it.tags ++ it.categories).contains c) <;>
        cases h4 : (f.tags.all fun t => (it.tags ++ it.categories).contains t) <;>
          cases h5 : within now f (effDate it) <;>
            simp

/-! ### Claim theorems -/

/-- C5: for every scored candidate list and every (numeric) requested
`top_k`, the ranker is the stable descending-by-score sort of the
non-negative candidates truncated to `max(1, top_k)` entries: it never
returns a negative-scored candidate, never more than `max(1, top_k)` items,
its output is descending (stable: equal-score candidates keep their input
order, expressed as filter-preservation per score value), `top_k` below 1 is
clamped to 1, and the result is empty exactly when no candidate qualifies. -/
theorem rank_spec (cands : List Scored) (k : Int) :
    rank cands (some k) =
        (sortDesc (cands.filter fun x => decide (0 ≤ x.s))).take (max 1 k).toNat
      ∧ (∀ x ∈ rank cands (some k), 0 ≤ x.s)
      ∧ (rank cands (some k)).length ≤ (max 1 k).toNat
      ∧ (rank cands (some k)).Pairwise (fun a b => b.s ≤ a.s)
      ∧ (∀ v : Int,
          (sortDesc (cands.filter fun x => decide (0 ≤ x.s))).filter
              (fun a => decide (a.s = v))
            = (cands.filter fun x => decide (0 ≤ x.s)).filter
              (fun a => decide (a.s = v)))
      ∧ (rank cands (some k) = [] ↔ (cands.filter fun x => decide (0 ≤ x.s)) = []) := by
  refine ⟨rfl, ?_, ?_, ?_, fun v => filter_sortDesc v _, ?_, ?_⟩
  · intro x hx
    have hx' : x ∈ sortDesc (cands.filter fun x => decide (0 ≤ x.s)) :=
      (List.take_sublist _ _).mem hx
    have := (List.mem_filter.mp (mem_sortDesc.mp hx')).2
    simpa using this
  · rw [rank]
    rw [show sliceBound (some k) = (max 1 k).toNat from rfl, List.length_take]
    exact min_le_left _ _
  · exact List.Pairwise.sublist (List.take_sublist _ _) (sortDesc_pairwise _)
  · intro h
    by_contra hne
    have hlen : (sortDesc (cands.filter fun x => decide (0 ≤ x.s))).length ≠ 0 := by
      rw [length_sortDesc]
      exact fun h0 => hne (List.length_eq_zero.mp h0)
    have hk : (max 1 k).toNat ≠ 0 := by
      intro h0
      rw [Int.toNat_eq_zero] at h0
      have := le_max_left 1 k
      omega
    rw [rank] at h
    rcases List.take_eq_nil_iff.mp h with h1 | h2
    · exact hk h1
    · exact hlen (by rw [h2]; rfl)
  · intro h
    rw [rank, h]
    simp [sortDesc]

/-- C9: when the request's `top_k` does not parse as a number
(`Number(top_k)` is `NaN`, modelled as `none`), the ranked result set is
empty even when non-negative-scored candidates exist, because
`Math.max(1, NaN)` is `NaN` and `slice(0, NaN)` keeps zero elements. -/
theorem rank_nan_topk_empty (cands : List Scored)
    (_h : (cands.filter fun x => decide (0 ≤ x.s)) ≠ []) :
    rank cands none = [] := rfl

theorem rank_nan_topk_empty_witness :
    ([({ s := 5 } : Scored)].filter fun x => decide (0 ≤ x.s)) ≠ []
      ∧ rank [({ s := 5 } : Scored)] none = [] :=
  ⟨by decide, rank_nan_topk_empty [({ s := 5 } : Scored)] (by decide)⟩

/-- C1 counterexample: with required tag set `["x"]`, an item whose `tags`
are empty but whose `categories` contain `"x"` is NOT rejected — its score
is `0`, not `-1` — because `score` tests membership in the combined
tag/category bag.  This falsifies the claim that presence of a required tag
only in the item's categories does not satisfy the tag check. -/
theorem score_tag_only_in_categories_not_rejected :
    score 1700000000000 { tags := ["x"] } []
        { tags := [], categories := ["x"] } = 0
      ∧ "x" ∉ ({ tags := [], categories := ["x"] } : Item).tags
      ∧ "x" ∈ ({ tags := ["x"] } : Filters).tags := by
  refine ⟨by decide, by decide, by decide⟩

/-- C1 (amended): the filter rejects the item (score `-1`) whenever some
required tag is missing from the union of the item's `tags` and
`categories`; a required tag present only in the categories does satisfy
the tag check, since the code tests the combined bag. -/
theorem score_rejects_missing_required_tag (now : Int) (f : Filters) (q : List String)
    (it : Item) (t : String) (ht : t ∈ f.tags)
    (hm : (it.tags ++ it.categories).contains t = false) :
    score now f q it = -1 := by
  have hall : (f.tags.all fun s => (it.tags ++ it.categories).contains s) = false := by
    rw [Bool.eq_false_iff]
    intro htr
    have := (List.all_eq_true.mp htr) t ht
    rw [hm] at this
    exact Bool.false_ne_true this
  rw [score, hall]
  split
  · rfl
  · split
    · rfl
    · rfl

theorem score_rejects_missing_required_tag_witness :
    "a" ∈ ({ tags := ["a"] } : Filters).tags
      ∧ ((({ tags := ["b"] } : Item).tags ++ ({ tags := ["b"] } : Item).categories).contains "a")
          = false
      ∧ score 0 { tags := ["a"] } [] { tags := ["b"] } = -1 :=
  ⟨by decide, by decide,
    score_rejects_missing_required_tag 0 { tags := ["a"] } [] { tags := ["b"] } "a"
      (by decide) (by decide)⟩

/-- C3 counterexample: with an API key configured, a transport error in the
provider call is NOT absorbed — the `fetch(...).then(r=>r.json())` chain has
no catch, so the outer try/catch turns it into an HTTP 500.  This falsifies
the claim that a provider failure is never escalated. -/
theorem handler_provider_transport_error_is_500 :
    handler 0 (.ok []) (.ok []) {} true (.error ()) = .err := rfl

/-- C3 (amended): when the provider responds but yields no content the
answer is null alongside the ranked results (not a pipeline failure), and
with no API key the provider is never consulted and the answer is null; but
a transport error in the provider call produces the HTTP 500 response. -/
theorem handler_provider_outcomes (now : Int) (posts reports : Except Unit (List Item))
    (req : Request) :
    handler now posts reports req true (.error ()) = .err
      ∧ (∀ c : Option String, handler now posts reports req true (.ok c) =
          .ok c (pipelineTop now req (corpus posts reports)))
      ∧ (∀ prov : Except Unit (Option String), handler now posts reports req false prov =
          .ok none (pipelineTop now req (corpus posts reports))) :=
  ⟨rfl, fun _ => rfl, fun _ => rfl⟩

/-- C7 counterexample: with both corpus fetches failed but an API key
configured and the provider call throwing, the request returns the HTTP 500
response, not a success — so "both collections unavailable" does not by
itself guarantee a success status. -/
theorem handler_corpus_failed_provider_error_is_500 :
    handler 0 (.error ()) (.error ()) {} true (.error ()) = .err := rfl

/-- C7 (amended): a failed fetch of either collection is equivalent to that
collection being empty (the pipeline completes identically), and with both
collections unavailable the request returns an empty result set with a
success status provided the completion stage does not itself fail: with no
API key, or with any provider response, the outcome is `ok` with empty
results. -/
theorem handler_corpus_failure_tolerance (now : Int) (req : Request) (key : Bool)
    (prov : Except Unit (Option String)) (ps rs : Except Unit (List Item)) :
    handler now (.error ()) rs req key prov = handler now (.ok []) rs req key prov
      ∧ handler now ps (.error ()) req key prov = handler now ps (.ok []) req key prov
      ∧ handler now (.error ()) (.error ()) req false prov = .ok none []
      ∧ (∀ c, handler now (.error ()) (.error ()) req true (.ok c) = .ok c []) := by
  refine ⟨rfl, rfl, ?_, ?_⟩
  · simp [handler, pipelineTop, corpus, rank, sortDesc]
  · intro c
    simp [handler, pipelineTop, corpus, rank, sortDesc]

/-- C4 counterexample: in the conversation
`[{user, ""}, {assistant, "x"}]` the most recent user message has content
`""`, yet the retrieval query is `"x"` (the last message's content), because
the JS `||` chain treats the empty string as falsy.  This falsifies the
claim that the query is always the most recent user message's content. -/
theorem queryOf_empty_user_content_cex :
    queryOf [{ role := "user", content := "" }, { role := "assistant", content := "x" }] = "x"
      ∧ (([{ role := "user", content := "" },
          { role := "assistant", content := "x" }] : List Msg).filter fun m => m.role == "user").getLast?
          = some { role := "user", content := "" }
      ∧ ("x" : String) ≠ "" := by
  refine ⟨by decide, by decide, by decide⟩

/-- C4 (amended): the retrieval query is the content of the most recent
user-role message whenever that content is non-empty; otherwise the code
falls back to the last message of any role, then to the empty string. -/
theorem queryOf_last_user_nonempty (ms : List Msg) (m : Msg)
    (h1 : (ms.filter fun m => m.role == "user").getLast? = some m)
    (h2 : m.content ≠ "") :
    queryOf ms = m.content := by
  rw [queryOf, h1]
  simp [jsOr, h2]

theorem queryOf_last_user_nonempty_witness :
    queryOf [{ role := "user", content := "hello" }, { role := "assistant", content := "yo" },
      { role := "user", content := "world" }, { role := "assistant", content := "hm" }]
      = "world" :=
  queryOf_last_user_nonempty _ { role := "user", content := "world" } (by decide) (by decide)

/-- C6: for every item that passes the filters, the score decomposes as
term score plus the recency bonus `max(0, 3 - min(3, floor(age_days / 7)))`;
an item dated exactly 7 days before `now` gets bonus 2, an item 21 or more
days old gets bonus 0, an unparseable date gets bonus 0, and the bonus is
never negative. -/
theorem score_recency_bonus_spec (now : Int) (f : Filters) (q : List String) (it : Item)
    (h : passesFilters now f it = true) :
    score now f q it = termScore (hayOf it) q + recencyBonus now (whenVal it)
      ∧ recencyBonus now (some (now - 7 * 86400000)) = 2
      ∧ (∀ t : Int, 21 * 86400000 ≤ now - t → recencyBonus now (some t) = 0)
      ∧ recencyBonus now none = 0
      ∧ (∀ w : Option Int, 0 ≤ recencyBonus now w) := by
  refine ⟨?_, ?_, ?_, rfl, ?_⟩
  · rw [score_split, if_pos h]
  · have hsub : now - (now - 7 * 86400000) = 604800000 := by ring
    simp only [recencyBonus, hsub]
    decide
  · intro t ht
    have hnum : ((21 : Int) * 86400000) / 604800000 = 3 := by decide
    have hmono := Int.ediv_le_ediv (by decide : (0 : Int) < 604800000) ht
    rw [hnum] at hmono
    have hmin : min 3 ((now - t) / 604800000) = 3 := min_eq_left hmono
    simp only [recencyBonus, hmin]
    decide
  · intro w
    cases w with
    | none => simp [recencyBonus]
    | some t =>
      simp only [recencyBonus]
      exact le_max_left 0 _

theorem score_recency_bonus_spec_witness :
    passesFilters 1704672000000 {} { added := some (some 1704067200000) } = true
      ∧ (score 1704672000000 {} ["ai"] { added := some (some 1704067200000) }
            = termScore (hayOf { added := some (some 1704067200000) }) ["ai"]
              + recencyBonus 1704672000000 (whenVal { added := some (some 1704067200000) })
          ∧ recencyBonus 1704672000000 (some (1704672000000 - 7 * 86400000)) = 2
          ∧ (∀ t : Int, 21 * 86400000 ≤ 1704672000000 - t →
              recencyBonus 1704672000000 (some t) = 0)
          ∧ recencyBonus 1704672000000 none = 0
          ∧ (∀ w : Option Int, 0 ≤ recencyBonus 1704672000000 w)) :=
  ⟨by decide,
    score_recency_bonus_spec 1704672000000 {} ["ai"] { added := some (some 1704067200000) }
      (by decide)⟩

/-- C8: scoring is monotonic in term overlap — appending a query token that
occurs as a substring of the item's lower-cased haystack never decreases the
item's score (filters and date held fixed). -/
theorem score_monotone_append_matching_token (now : Int) (f : Filters) (qs : List String)
    (it : Item) (t : String) (_h : strIncludes (hayOf it) t = true) :
    score now f qs it ≤ score now f (qs ++ [t]) it := by
  rw [score_split, score_split]
  by_cases hp : passesFilters now f it = true
  · rw [if_pos hp, if_pos hp]
    simp only [termScore, List.countP_append]
    omega
  · rw [if_neg hp, if_neg hp]

theorem score_monotone_append_matching_token_witness :
    strIncludes (hayOf { title := "Brussels" }) "russ" = true
      ∧ score 0 {} ["x"] { title := "Brussels" }
          ≤ score 0 {} (["x"] ++ ["russ"]) { title := "Brussels" } :=
  ⟨by decide,
    score_monotone_append_matching_token 0 {} ["x"] { title := "Brussels" } "russ" (by decide)⟩

/-- C10: under a positive `date_from_days` window, an item whose effective
date field is present but unparseable is rejected by the filter (score
`-1`), while an item with no effective-date field at all always passes the
recency check. -/
theorem score_unparseable_date_rejected (now : Int) (f : Filters) (q : List String) (it : Item)
    (hd : 0 < f.date_from_days) (he : effDate it = some none) :
    score now f q it = -1 ∧ (∀ now2 : Int, ∀ f2 : Filters, within now2 f2 none = true) := by
  constructor
  · have hw : within now f (some none) = false := by
      rw [within, if_neg (by omega : ¬f.date_from_days = 0)]
    simp [score, he, hw]
  · intro now2 f2
    rw [within]
    split
    · rfl
    · rfl

theorem score_unparseable_date_rejected_witness :
    (0 : Int) < ({ date_from_days := 30 } : Filters).date_from_days
      ∧ effDate { added := some none } = some none
      ∧ (score 1700000000000 { date_from_days := 30 } [] { added := some none } = -1
          ∧ ∀ now2 : Int, ∀ f2 : Filters, within now2 f2 none = true) :=
  ⟨by decide, by decide,
    score_unparseable_date_rejected 1700000000000 { date_from_days := 30 } []
      { added := some none } (by decide) (by decide)⟩

/-- C2 (code bug): the handler ignores any supplied attachments.  Its
response is unchanged by the request's `attachments` field, and the context
block consists of exactly one entry per ranked item — no `[Ai]` attachment
entry is ever produced.  At the failing input (a request supplying one
attachment, one ranked item) the block is a single ranked-item entry that
contains no `[A1]` tag and no trace of the attachment. -/
theorem contextEntries_drop_attachments :
    (∀ (now : Int) (posts reports : Except Unit (List Item)) (req : Request)
        (atts : List Attachment) (key : Bool) (prov : Except Unit (Option String)),
        handler now posts reports { req with attachments := atts } key prov
          = handler now posts reports req key prov)
      ∧ (∀ top : List Item, contextEntries top = top.enum.map fun p => itemEntry p.1 p.2)
      ∧ (∀ top : List Item, (contextEntries top).length = top.length)
      ∧ (contextEntries [{ title := "AI Act" }]).length = 1
      ∧ (∀ e ∈ contextEntries [{ title := "AI Act" }],
          strIncludes e "[A1]" = false
            ∧ strIncludes e ({ name := "notes.txt", text := "hello" } : Attachment).name = false
            ∧ strIncludes e ({ name := "notes.txt", text := "hello" } : Attachment).text = false) := by
  refine ⟨fun _ _ _ _ _ _ _ => rfl, fun _ => rfl, ?_, by decide, by decide⟩
  intro top
  simp [contextEntries]
